import Mathlib

/-!
Shallow embedding of `src/caffe/layers/detection_output_layer.cpp`
(DetectionOutputLayer of CAFFE_SSD): LayerSetUp, Reshape and Forward_cpu.

The floating type `Dtype` is idealised as `ℚ`.  Fatal checks (`CHECK`,
`LOG(FATAL)`) are modelled as `Except.error`.  `std::map` values appear as
association lists whose key order matches the ascending construction order
of the C++ code.  File output is modelled as data (`SaveLine` values).

Helper routines declared in `caffe/util/bbox_util.hpp` are not part of this
repository snapshot (only their call sites in `detection_output_layer.cpp`
are); they are modelled from the specification and carry a
`Modelled from the spec:` doc comment.
-/

/- Batteries marks the `Rat` field operations `@[irreducible]`; restore the
default reducibility so that concrete runs of the embedded functions can be
checked by `decide`/`rfl` (this does not affect soundness, only unfolding). -/
set_option allowUnsafeReducibility true in
attribute [semireducible] Rat.mul Rat.inv Rat.add Rat.sub Rat.ofScientific

namespace CaffeSSD

/-- A bounding box in normalised image coordinates,
mirroring `NormalizedBBox` (xmin, ymin, xmax, ymax). -/
structure NormalizedBBox where
  xmin : ℚ
  ymin : ℚ
  xmax : ℚ
  ymax : ℚ
deriving DecidableEq, Repr

/-- Default-constructed box (all coordinates zero). -/
def zeroBox : NormalizedBBox := ⟨0, 0, 0, 0⟩

/-- A box is ordered when xmin ≤ xmax and ymin ≤ ymax. -/
def NormalizedBBox.Ordered (b : NormalizedBBox) : Prop :=
  b.xmin ≤ b.xmax ∧ b.ymin ≤ b.ymax

/-- Clamp a coordinate to the unit interval. -/
def clampUnit (q : ℚ) : ℚ := max (min q 1) 0

/-- Modelled from the spec: `ClipBBox` (declared in `bbox_util.hpp`, body not
under `src/`) clamps each coordinate of the box to `[0,1]`. -/
def ClipBBox (b : NormalizedBBox) : NormalizedBBox :=
  ⟨clampUnit b.xmin, clampUnit b.ymin, clampUnit b.xmax, clampUnit b.ymax⟩

/-- Modelled from the spec: `ScaleBBox` (declared in `bbox_util.hpp`, body not
under `src/`) rescales a normalised box by the externally supplied
`(height, width)` pair of the image.  The spec scenario
(clipped box (0.1,0.1,0.5,0.5), size (200,100) ↦ (20,10,100,50)) fixes the
convention: x-coordinates are scaled by the first component (height) and
y-coordinates by the second (width). -/
def ScaleBBox (b : NormalizedBBox) (height width : ℤ) : NormalizedBBox :=
  ⟨b.xmin * height, b.ymin * width, b.xmax * height, b.ymax * width⟩

/-- Truncation toward zero, the behaviour of C++ `static_cast<int>`:
truncating division of the numerator by the denominator. -/
def truncToZero (q : ℚ) : ℤ := q.num.tdiv q.den

/-- Modelled from the spec: size (area) of a normalised box, zero when the
box is inverted. -/
def BBoxSize (b : NormalizedBBox) : ℚ :=
  if b.xmax < b.xmin ∨ b.ymax < b.ymin then 0
  else (b.xmax - b.xmin) * (b.ymax - b.ymin)

/-- Modelled from the spec: coordinate-wise intersection of two boxes. -/
def IntersectBBox (a b : NormalizedBBox) : NormalizedBBox :=
  ⟨max a.xmin b.xmin, max a.ymin b.ymin, min a.xmax b.xmax, min a.ymax b.ymax⟩

/-- Modelled from the spec: intersection-over-union overlap of two boxes. -/
def JaccardOverlap (a b : NormalizedBBox) : ℚ :=
  let inter := BBoxSize (IntersectBBox a b)
  let uni := BBoxSize a + BBoxSize b - inter
  if uni ≤ 0 then 0 else inter / uni

/-- Candidate ordering for suppression: descending score, ties broken by the
lower original index first (deterministic, per the spec). -/
def scoreBefore (a b : Nat × ℚ) : Bool :=
  decide (b.2 < a.2) || (decide (a.2 = b.2) && decide (a.1 ≤ b.1))

/-- Insert one scored index into an already ordered candidate list. -/
def insertByScore (x : Nat × ℚ) : List (Nat × ℚ) → List (Nat × ℚ)
  | [] => [x]
  | y :: ys => if scoreBefore x y then x :: y :: ys else y :: insertByScore x ys

/-- Sort scored indices by `scoreBefore` (insertion sort; the comparison is a
total order because indices are distinct, so the result is the unique
descending-score, index-tie-broken ordering the spec requires). -/
def sortByScore : List (Nat × ℚ) → List (Nat × ℚ)
  | [] => []
  | x :: xs => insertByScore x (sortByScore xs)

/-- Greedy suppression core: walk candidates in order, accept a candidate
unless its overlap with a previously accepted box exceeds the threshold. -/
def nmsKeep (bboxes : List NormalizedBBox) (thresh : ℚ) :
    List (Nat × ℚ) → List Nat → List Nat
  | [], _ => []
  | (i, _) :: rest, kept =>
    if kept.all fun j =>
        decide (JaccardOverlap (bboxes.getD j zeroBox) (bboxes.getD i zeroBox) ≤ thresh) then
      i :: nmsKeep bboxes thresh rest (i :: kept)
    else
      nmsKeep bboxes thresh rest kept

/-- Modelled from the spec: `ApplyNMS` (declared in `bbox_util.hpp`, body not
under `src/`).  Sort anchor indices by descending score with deterministic
tie-break, truncate to the top k candidates when `0 ≤ topK`, then greedily
keep candidates whose overlap with every previously kept box stays within
the threshold. -/
def ApplyNMS (bboxes : List NormalizedBBox) (scores : List ℚ)
    (thresh : ℚ) (topK : Int) : List Nat :=
  let pool := sortByScore scores.enum
  let pool := if 0 ≤ topK then pool.take topK.toNat else pool
  nmsKeep bboxes thresh pool []

/-- Zip three lists with a ternary function (helper for box decoding). -/
def zipWith3 {α β γ δ : Type} (f : α → β → γ → δ) :
    List α → List β → List γ → List δ
  | a :: as, b :: bs, c :: cs => f a b c :: zipWith3 f as bs cs
  | _, _, _ => []

/-- The single-anchor decode transform (`DecodeBBox` in `bbox_util.cpp`,
not under `src/`): prior box, per-coordinate variance vector and encoded
location prediction to a decoded box.  The spec fixes only its shape
(centre/size offset decoding scaled by the variances), so the forward pass
is parametric over it. -/
def DecodeFun : Type := NormalizedBBox → List ℚ → NormalizedBBox → NormalizedBBox

/-- Modelled from the spec: `DecodeBBoxes` (declared in `bbox_util.hpp`, body
not under `src/`) decodes one box per anchor from parallel lists of priors,
variances and location predictions. -/
def DecodeBBoxes (d : DecodeFun) (priors : List NormalizedBBox)
    (vars : List (List ℚ)) (locs : List NormalizedBBox) : List NormalizedBBox :=
  zipWith3 d priors vars locs

/-- Lookup in an association list with integer keys; mirrors `std::map::find`
(the lists built below are sorted with distinct keys, so first-match lookup
agrees with map lookup). -/
def alFind {α : Type} : List (Int × α) → Int → Option α
  | [], _ => none
  | (k, v) :: rest, key => if k = key then some v else alFind rest key

/-- Modelled from the spec: `GetLocPredictions` (declared in `bbox_util.hpp`,
body not under `src/`).  Regroups the flat location buffer into one map per
image from location label to the per-anchor box list; in shared-location
mode the sole key is the sentinel label `-1`, otherwise the keys are
`0 .. locClasses-1`. -/
def GetLocPredictions (locData : List ℚ) (num numPriors locClasses : Nat)
    (shareLocation : Bool) : List (List (Int × List NormalizedBBox)) :=
  (List.range num).map fun i =>
    (List.range locClasses).map fun c =>
      ((if shareLocation then (-1 : Int) else Int.ofNat c),
        (List.range numPriors).map fun p =>
          let base := ((i * numPriors + p) * locClasses + c) * 4
          ⟨locData.getD base 0, locData.getD (base + 1) 0,
           locData.getD (base + 2) 0, locData.getD (base + 3) 0⟩)

/-- Modelled from the spec: `GetConfidenceScores` (declared in
`bbox_util.hpp`, body not under `src/`).  Regroups the flat confidence
buffer into one map per image from class id to the per-anchor score list;
every class `0 .. numClasses-1` gets an entry. -/
def GetConfidenceScores (confData : List ℚ) (num numPriors numClasses : Nat) :
    List (List (Int × List ℚ)) :=
  (List.range num).map fun i =>
    (List.range numClasses).map fun c =>
      (Int.ofNat c,
        (List.range numPriors).map fun p =>
          confData.getD ((i * numPriors + p) * numClasses + c) 0)

/-- Modelled from the spec: `GetPriorBBoxes` (declared in `bbox_util.hpp`,
body not under `src/`).  Splits the flat prior buffer into the anchor boxes
(first block) and their variance vectors (second block). -/
def GetPriorBBoxes (priorData : List ℚ) (numPriors : Nat) :
    List NormalizedBBox × List (List ℚ) :=
  ((List.range numPriors).map fun p =>
      ⟨priorData.getD (4 * p) 0, priorData.getD (4 * p + 1) 0,
       priorData.getD (4 * p + 2) 0, priorData.getD (4 * p + 3) 0⟩,
   (List.range numPriors).map fun p =>
      [priorData.getD (4 * numPriors + 4 * p) 0,
       priorData.getD (4 * numPriors + 4 * p + 1) 0,
       priorData.getD (4 * numPriors + 4 * p + 2) 0,
       priorData.getD (4 * numPriors + 4 * p + 3) 0])

/-- The configuration/bookkeeping members of `DetectionOutputLayer` after
`LayerSetUp`. -/
structure LayerState where
  num_classes : Nat
  share_location : Bool
  background_label_id : Int
  nms_threshold : ℚ
  top_k : Int
  need_save : Bool
  label_to_name : List (Int × String)
  names : List String
  sizes : List (Int × Int)
  name_count : Nat
  output_name_prfx : String
deriving DecidableEq, Repr

/-- Mirrors `loc_classes_`: 1 in shared-location mode, else the number of classes
(set this way in `LayerSetUp`). -/
def LayerState.locClasses (st : LayerState) : Nat :=
  if st.share_location then 1 else st.num_classes

/-- The fatal checks of `Forward_cpu`, by source location. -/
inductive DetError where
  /-- line 153: no location predictions for a label during decoding. -/
  | decodeNoLocPred (label : Int)
  /-- line 170: no confidence predictions for a class. -/
  | nmsNoConfPred (c : Int)
  /-- line 175: no decoded boxes for a label before suppression. -/
  | nmsNoLocPred (label : Int)
  /-- line 201: no decoded boxes for a label while packing. -/
  | packNoLocPred (label : Int)
  /-- line 210: class label absent from the label-to-name map. -/
  | labelNotInMap (label : Int)
  /-- line 216: `CHECK_LT(name_count_, names_.size())` failed. -/
  | nameCountOutOfRange
deriving DecidableEq, Repr

/-- Mirrors `int label = share_location_ ? -1 : c` (lines 146 and 172). -/
def locLabelOf (st : LayerState) (c : Nat) : Int :=
  if st.share_location then -1 else (c : Int)

/-- Mirrors `int loc_label = share_location_ ? -1 : label` (line 198). -/
def locLabelOfInt (st : LayerState) (label : Int) : Int :=
  if st.share_location then -1 else label

/-- Per-image decode loop of `Forward_cpu` (lines 145-157): for each
location class, skip the background label, fail fatally when the label has
no location predictions, otherwise decode the boxes for that label.  Entries
are produced in ascending label order, matching `std::map` iteration. -/
def decodeImageLoop (st : LayerState) (d : DecodeFun)
    (priors : List NormalizedBBox) (vars : List (List ℚ))
    (locPred : List (Int × List NormalizedBBox)) :
    List Nat → Except DetError (List (Int × List NormalizedBBox))
  | [] => .ok []
  | c :: cs =>
    if locLabelOf st c = st.background_label_id then
      decodeImageLoop st d priors vars locPred cs
    else
      match alFind locPred (locLabelOf st c) with
      | none => .error (.decodeNoLocPred (locLabelOf st c))
      | some locs => do
        let rest ← decodeImageLoop st d priors vars locPred cs
        .ok ((locLabelOf st c, DecodeBBoxes d priors vars locs) :: rest)

/-- Per-image suppression loop of `Forward_cpu` (lines 163-181): for each
class, skip the background class, fail fatally when the class has no
confidence scores or its location label has no decoded boxes, otherwise run
suppression.  An entry is created for every non-background class, kept
indices empty or not, matching `indices[c]` in the C++ code. -/
def nmsImageLoop (st : LayerState) (confScores : List (Int × List ℚ))
    (decodeB : List (Int × List NormalizedBBox)) :
    List Nat → Except DetError (List (Int × List Nat))
  | [] => .ok []
  | c :: cs =>
    if (c : Int) = st.background_label_id then
      nmsImageLoop st confScores decodeB cs
    else
      match alFind confScores (c : Int) with
      | none => .error (.nmsNoConfPred (c : Int))
      | some scores =>
        match alFind decodeB (locLabelOf st c) with
        | none => .error (.nmsNoLocPred (locLabelOf st c))
        | some bboxes => do
          let rest ← nmsImageLoop st confScores decodeB cs
          .ok (((c : Int), ApplyNMS bboxes scores st.nms_threshold st.top_k) :: rest)

/-- Decoded boxes and kept-index lists of one image after the first
(count/suppression) pass. -/
structure ImageNms where
  decodeB : List (Int × List NormalizedBBox)
  indices : List (Int × List Nat)
deriving DecidableEq, Repr

/-- Decode and suppress one image (`Forward_cpu` lines 142-183). -/
def processImage (st : LayerState) (d : DecodeFun)
    (priors : List NormalizedBBox) (vars : List (List ℚ))
    (locPred : List (Int × List NormalizedBBox))
    (confScores : List (Int × List ℚ)) : Except DetError ImageNms := do
  let dB ← decodeImageLoop st d priors vars locPred (List.range st.locClasses)
  let ind ← nmsImageLoop st confScores dB (List.range st.num_classes)
  .ok ⟨dB, ind⟩

/-- First pass over the batch: decode and suppress every image, aborting on
the first fatal error. -/
def countPass (st : LayerState) (d : DecodeFun)
    (priors : List NormalizedBBox) (vars : List (List ℚ)) :
    List ((List (Int × List NormalizedBBox)) × (List (Int × List ℚ))) →
    Except DetError (List ImageNms)
  | [] => .ok []
  | (lp, cs) :: rest => do
    let img ← processImage st d priors vars lp cs
    let imgs ← countPass st d priors vars rest
    .ok (img :: imgs)

/-- Kept detections of one image: sum of its per-class kept-index sizes. -/
def keptCount (img : ImageNms) : Nat :=
  (img.indices.map fun e => e.2.length).sum

/-- Mirrors `num_kept`: total kept detections across the batch. -/
def totalKept (imgs : List ImageNms) : Nat :=
  (imgs.map keptCount).sum

/-- One 7-field detection record of the output buffer:
`[image_id, label, confidence, xmin, ymin, xmax, ymax]`. -/
structure Record where
  image_id : ℚ
  label : ℚ
  confidence : ℚ
  xmin : ℚ
  ymin : ℚ
  xmax : ℚ
  ymax : ℚ
deriving DecidableEq, Repr

/-- The seven buffer cells of a record, in buffer order. -/
def Record.toList (r : Record) : List ℚ :=
  [r.image_id, r.label, r.confidence, r.xmin, r.ymin, r.xmax, r.ymax]

/-- One persisted text line (file name plus the fields written to it);
pixel coordinates are already truncated as by `static_cast<int>`. -/
structure SaveLine where
  file : String
  image_name : String
  confidence : ℚ
  pxmin : ℤ
  pymin : ℤ
  pxmax : ℤ
  pymax : ℤ
deriving DecidableEq, Repr

/-- Build the 7-field record for kept index `idx` of class `label` in image
`i` (`Forward_cpu` lines 219-228): confidence looked up in the class score
list, box clipped to the unit frame. -/
def mkRecord (i : Nat) (label : Int) (confScores : List (Int × List ℚ))
    (bboxes : List NormalizedBBox) (idx : Nat) : Record :=
  let score := ((alFind confScores label).getD []).getD idx 0
  let clip := ClipBBox (bboxes.getD idx zeroBox)
  ⟨(i : ℚ), (label : ℚ), score, clip.xmin, clip.ymin, clip.xmax, clip.ymax⟩

/-- Build the persisted line for kept index `idx` (`Forward_cpu` lines
229-240): the clipped box is rescaled by the image (height, width) pair
and each coordinate truncated toward zero. -/
def mkLine (st : LayerState) (clsName : String) (nameCount : Nat)
    (label : Int) (confScores : List (Int × List ℚ))
    (bboxes : List NormalizedBBox) (idx : Nat) : SaveLine :=
  let score := ((alFind confScores label).getD []).getD idx 0
  let clip := ClipBBox (bboxes.getD idx zeroBox)
  let sz := st.sizes.getD nameCount (0, 0)
  let scaled := ScaleBBox clip sz.1 sz.2
  ⟨st.output_name_prfx ++ clsName ++ ".txt", st.names.getD nameCount "", score,
   truncToZero scaled.xmin, truncToZero scaled.ymin,
   truncToZero scaled.xmax, truncToZero scaled.ymax⟩

/-- Pack the kept detections of one image (`Forward_cpu` lines 195-247):
iterate the per-class kept-index map in key order; fail fatally when the
location label has no decoded boxes, and — when persistence is on — when
the class is absent from the label-name map or the image counter has passed
the end of the name list.  Those persistence checks run once per class
entry, before the per-index loop, even when the entry is empty. -/
def packEntries (st : LayerState) (i : Nat)
    (decodeB : List (Int × List NormalizedBBox))
    (confScores : List (Int × List ℚ)) (nameCount : Nat) :
    List (Int × List Nat) → Except DetError (List Record × List SaveLine)
  | [] => .ok ([], [])
  | (label, idxs) :: rest =>
    match alFind decodeB (locLabelOfInt st label) with
    | none => .error (.packNoLocPred (locLabelOfInt st label))
    | some bboxes =>
      if st.need_save then
        match alFind st.label_to_name label with
        | none => .error (.labelNotInMap label)
        | some clsName =>
          if nameCount < st.names.length then do
            let (rs, ls) ← packEntries st i decodeB confScores nameCount rest
            .ok (idxs.map (mkRecord i label confScores bboxes) ++ rs,
                 idxs.map (mkLine st clsName nameCount label confScores bboxes) ++ ls)
          else
            .error .nameCountOutOfRange
      else do
        let (rs, ls) ← packEntries st i decodeB confScores nameCount rest
        .ok (idxs.map (mkRecord i label confScores bboxes) ++ rs, ls)

/-- Second (pack) pass over the batch (`Forward_cpu` lines 191-251): pack
every image in order; the persistence image counter advances once per image
when persistence is on. -/
def packImages (st : LayerState) :
    Nat → Nat → List (ImageNms × List (Int × List ℚ)) →
    Except DetError (List Record × List SaveLine × Nat)
  | _, nameCount, [] => .ok ([], [], nameCount)
  | i, nameCount, (img, confScores) :: rest => do
    let (rs, ls) ← packEntries st i img.decodeB confScores nameCount img.indices
    let nc := if st.need_save then nameCount + 1 else nameCount
    let (rs2, ls2, ncFinal) ← packImages st (i + 1) nc rest
    .ok (rs ++ rs2, ls ++ ls2, ncFinal)

/-- Result of one forward pass: output-buffer shape, the packed records,
the persisted lines, and the updated image counter. -/
structure ForwardOutput where
  topShape : List Nat
  records : List Record
  saveLines : List SaveLine
  name_count : Nat
deriving DecidableEq, Repr

/-- Embeds `DetectionOutputLayer::Forward_cpu` (lines 116-252): regroup the three
input buffers, decode and suppress every image (first pass), reshape the
output buffer to `(1, 1, num_kept, 7)`, then pack the kept detections and
optionally persist them (second pass). -/
def Forward (st : LayerState) (d : DecodeFun)
    (locData confData priorData : List ℚ) (num numPriors : Nat) :
    Except DetError ForwardOutput := do
  let allLocPreds := GetLocPredictions locData num numPriors st.locClasses st.share_location
  let allConfScores := GetConfidenceScores confData num numPriors st.num_classes
  let priors := (GetPriorBBoxes priorData numPriors).1
  let vars := (GetPriorBBoxes priorData numPriors).2
  let imgs ← countPass st d priors vars (allLocPreds.zip allConfScores)
  let numKept := totalKept imgs
  let packed ← packImages st 0 st.name_count (imgs.zip allConfScores)
  .ok ⟨[1, 1, numKept, 7], packed.1, packed.2.1, packed.2.2⟩

/-- The fatal checks of `DetectionOutputLayer::Reshape` (lines 98-103). -/
inductive ReshapeError where
  /-- Mirrors `CHECK_EQ(bottom[0]->num(), bottom[1]->num())`. -/
  | numMismatch
  /-- location channels inconsistent with the anchor count. -/
  | locChannelsMismatch
  /-- confidence channels inconsistent with the anchor count. -/
  | confChannelsMismatch
deriving DecidableEq, Repr

/-- Embeds `DetectionOutputLayer::Reshape` (lines 95-113): check batch sizes agree
and both prediction channel counts match the anchor count derived from the
height of the prior blob; returns `num_priors_`. -/
def Reshape (st : LayerState)
    (bottom0Num bottom0Channels bottom1Num bottom1Channels bottom2Height : Nat) :
    Except ReshapeError Nat :=
  if bottom0Num ≠ bottom1Num then .error .numMismatch
  else
    let numPriors := bottom2Height / 4
    if numPriors * st.locClasses * 4 ≠ bottom0Channels then .error .locChannelsMismatch
    else if numPriors * st.num_classes ≠ bottom1Channels then .error .confChannelsMismatch
    else .ok numPriors

/-- The `DetectionOutputParameter` / `SaveOutputParameter` configuration
consumed by `LayerSetUp`.  `num_classes` and `top_k` are optional protobuf
fields (`has_num_classes`, `has_top_k`); empty strings are the protobuf
defaults for the path fields. -/
structure DetectionOutputParameter where
  num_classes : Option Nat
  share_location : Bool
  background_label_id : Int
  nms_threshold : ℚ
  top_k : Option Int
  output_directory : String
  output_name_prfx : String
  output_format : String
  label_map_file : String
  name_size_file : String
deriving Repr

/-- The external collaborators `LayerSetUp` touches: the filesystem and the
two parsers.  `read_label_map` is `none` when `ReadProtoFromTextFile` or
`MapLabelToName` fails (malformed file); `name_size_good` is false when the
name/size file cannot be opened. -/
structure SetupEnv where
  is_directory : String → Bool
  create_directories : String → Bool
  read_label_map : String → Option (List (Int × String))
  name_size_good : String → Bool
  name_size_entries : String → List (String × Int × Int)

/-- The fatal checks of `LayerSetUp`, by source location. -/
inductive SetupError where
  /-- line 18: `CHECK(detection_output_param.has_num_classes())`. -/
  | missingNumClasses
  /-- line 25: `CHECK_GE(nms_threshold_, 0.)`. -/
  | negativeNmsThreshold
  /-- line 36: `LOG(FATAL)` when the output directory cannot be created. -/
  | createDirectoryFailed
  /-- lines 50-53: `CHECK(ReadProtoFromTextFile(...))` /
  `CHECK(MapLabelToName(...))` on a malformed label map file. -/
  | labelMapReadFailed
  /-- line 62: `CHECK(infile.good())` on an unreadable name/size file. -/
  | nameSizeOpenFailed
deriving DecidableEq, Repr

/-- Result of a successful `LayerSetUp`: the layer state, the warnings
logged (`LOG(WARNING)` lines 46 and 58), and the per-class output files
truncated at lines 78-91. -/
structure SetupResult where
  state : LayerState
  warnings : List String
  truncatedFiles : List String
deriving Repr

/-- Embeds `DetectionOutputLayer::LayerSetUp` (lines 13-93).  Fatal: missing
`num_classes`, a negative suppression threshold, a directory that cannot be
created, a malformed (non-empty) label map file, an unreadable (non-empty)
name/size file.  Graceful: an *empty* `label_map_file` or `name_size_file`
path under the "VOC" output format merely logs a warning and disables
persistence. -/
def LayerSetUp (p : DetectionOutputParameter) (env : SetupEnv) :
    Except SetupError SetupResult :=
  match p.num_classes with
  | none => .error .missingNumClasses
  | some ncls =>
    if p.nms_threshold < 0 then .error .negativeNmsThreshold
    else
      let topK : Int := (p.top_k).getD (-1)
      if p.output_directory ≠ "" ∧ ¬ env.is_directory p.output_directory = true ∧
          ¬ env.create_directories p.output_directory = true then
        .error .createDirectoryFailed
      else
        let needSave0 : Bool := p.output_directory ≠ ""
        let base : LayerState :=
          { num_classes := ncls
            share_location := p.share_location
            background_label_id := p.background_label_id
            nms_threshold := p.nms_threshold
            top_k := topK
            need_save := needSave0
            label_to_name := []
            names := []
            sizes := []
            name_count := 0
            output_name_prfx := p.output_name_prfx }
        if p.output_format = "VOC" then
          let labelStep : Except SetupError (List (Int × String) × Bool × List String) :=
            if p.label_map_file = "" then
              .ok ([], false, ["Provide label_map_file if output results for VOC."])
            else
              match env.read_label_map p.label_map_file with
              | none => .error .labelMapReadFailed
              | some m => .ok (m, needSave0, [])
          match labelStep with
          | .error e => .error e
          | .ok (labelToName, needSave1, warns1) =>
            let nameStep : Except SetupError
                (List String × List (Int × Int) × Bool × List String) :=
              if p.name_size_file = "" then
                .ok ([], [], false, ["Provide name_size_file if output results for VOC."])
              else if env.name_size_good p.name_size_file then
                let entries := env.name_size_entries p.name_size_file
                .ok (entries.map fun e => e.1, entries.map fun e => (e.2.1, e.2.2),
                     needSave1, [])
              else
                .error .nameSizeOpenFailed
            match nameStep with
            | .error e => .error e
            | .ok (names, sizes, needSave2, warns2) =>
              let st := { base with
                need_save := needSave2, label_to_name := labelToName,
                names := names, sizes := sizes }
              let truncated :=
                if needSave2 then
                  (labelToName.filter fun e => e.1 ≠ p.background_label_id).map
                    fun e => p.output_name_prfx ++ e.2 ++ ".txt"
                else []
              .ok ⟨st, warns1 ++ warns2, truncated⟩
        else
          .ok ⟨base, [], []⟩

/-! ### Helper lemmas -/

theorem exceptBind_ok {ε α β : Type} {x : Except ε α} {f : α → Except ε β} {b : β}
    (h : x >>= f = Except.ok b) : ∃ a, x = Except.ok a ∧ f a = Except.ok b := by
  cases x with
  | error e => simp [Bind.bind, Except.bind] at h
  | ok a => exact ⟨a, rfl, by simpa [Bind.bind, Except.bind] using h⟩

theorem exceptBind_error {ε α β : Type} {x : Except ε α} {f : α → Except ε β} {e : ε}
    (h : x = Except.error e) : x >>= f = Except.error e := by
  subst h; rfl

theorem alFind_mem {α : Type} {l : List (Int × α)} {k : Int} {v : α}
    (h : alFind l k = some v) : (k, v) ∈ l := by
  induction l with
  | nil => simp [alFind] at h
  | cons kv rest ih =>
    obtain ⟨k2, v2⟩ := kv
    simp only [alFind] at h
    split at h
    · rename_i heq
      cases h
      subst heq
      exact List.mem_cons_self _ _
    · exact List.mem_cons_of_mem _ (ih h)

theorem nmsKeep_length_le (bboxes : List NormalizedBBox) (thresh : ℚ) :
    ∀ (pool : List (Nat × ℚ)) (kept : List Nat),
      (nmsKeep bboxes thresh pool kept).length ≤ pool.length := by
  intro pool
  induction pool with
  | nil => intro kept; simp [nmsKeep]
  | cons hd tl ih =>
    intro kept
    obtain ⟨i, s⟩ := hd
    simp only [nmsKeep]
    split
    · simpa using Nat.succ_le_succ (ih _)
    · exact Nat.le_succ_of_le (ih _)

theorem ApplyNMS_length_le (bboxes : List NormalizedBBox) (scores : List ℚ)
    (thresh : ℚ) {k : Int} (hk : 0 ≤ k) :
    (ApplyNMS bboxes scores thresh k).length ≤ k.toNat := by
  unfold ApplyNMS
  simp only [if_pos hk]
  calc (nmsKeep bboxes thresh ((sortByScore scores.enum).take k.toNat) []).length
      ≤ ((sortByScore scores.enum).take k.toNat).length :=
        nmsKeep_length_le bboxes thresh _ _
    _ ≤ k.toNat := by
        rw [List.length_take]
        exact Nat.min_le_left _ _

theorem nmsImageLoop_mem (st : LayerState) (confScores : List (Int × List ℚ))
    (decodeB : List (Int × List NormalizedBBox)) :
    ∀ (cs : List Nat) (ind : List (Int × List Nat)),
      nmsImageLoop st confScores decodeB cs = .ok ind →
      ∀ e ∈ ind, e.1 ≠ st.background_label_id ∧
        ∃ bboxes scores, alFind decodeB (locLabelOfInt st e.1) = some bboxes ∧
          alFind confScores e.1 = some scores ∧
          e.2 = ApplyNMS bboxes scores st.nms_threshold st.top_k := by
  intro cs
  induction cs with
  | nil =>
    intro ind h e he
    simp only [nmsImageLoop] at h
    cases h
    simp at he
  | cons c cs ih =>
    intro ind h e he
    simp only [nmsImageLoop] at h
    split at h
    · exact ih ind h e he
    · rename_i hbg
      cases hconf : alFind confScores (c : Int) with
      | none => rw [hconf] at h; cases h
      | some scores =>
        rw [hconf] at h
        simp only at h
        cases hdec : alFind decodeB (locLabelOf st c) with
        | none => rw [hdec] at h; cases h
        | some bboxes =>
          rw [hdec] at h
          obtain ⟨rest, hrest, hcons⟩ := exceptBind_ok h
          cases hcons
          rcases List.mem_cons.mp he with he1 | he2
          · subst he1
            exact ⟨hbg, bboxes, scores, hdec, hconf, rfl⟩
          · exact ih rest hrest e he2

theorem processImage_ok {st : LayerState} {d : DecodeFun}
    {priors : List NormalizedBBox} {vars : List (List ℚ)}
    {lp : List (Int × List NormalizedBBox)} {cs : List (Int × List ℚ)}
    {img : ImageNms} (h : processImage st d priors vars lp cs = .ok img) :
    decodeImageLoop st d priors vars lp (List.range st.locClasses) = .ok img.decodeB ∧
    nmsImageLoop st cs img.decodeB (List.range st.num_classes) = .ok img.indices := by
  unfold processImage at h
  obtain ⟨dB, hdB, h2⟩ := exceptBind_ok h
  obtain ⟨ind, hind, h3⟩ := exceptBind_ok h2
  cases h3
  exact ⟨hdB, hind⟩

theorem countPass_mem (st : LayerState) (d : DecodeFun)
    (priors : List NormalizedBBox) (vars : List (List ℚ)) :
    ∀ (pairs : List ((List (Int × List NormalizedBBox)) × (List (Int × List ℚ))))
      (imgs : List ImageNms),
      countPass st d priors vars pairs = .ok imgs →
      ∀ img ∈ imgs, ∃ pr ∈ pairs, processImage st d priors vars pr.1 pr.2 = .ok img := by
  intro pairs
  induction pairs with
  | nil =>
    intro imgs h img hm
    simp only [countPass] at h
    cases h
    simp at hm
  | cons pr rest ih =>
    intro imgs h img hm
    obtain ⟨lp, cs⟩ := pr
    simp only [countPass] at h
    obtain ⟨img1, himg1, h2⟩ := exceptBind_ok h
    obtain ⟨imgs1, himgs1, h3⟩ := exceptBind_ok h2
    cases h3
    rcases List.mem_cons.mp hm with hm1 | hm2
    · subst hm1
      exact ⟨(lp, cs), List.mem_cons_self _ _, himg1⟩
    · obtain ⟨pr2, hpr2, hp2⟩ := ih imgs1 himgs1 img hm2
      exact ⟨pr2, List.mem_cons_of_mem _ hpr2, hp2⟩

theorem countPass_length (st : LayerState) (d : DecodeFun)
    (priors : List NormalizedBBox) (vars : List (List ℚ)) :
    ∀ (pairs : List ((List (Int × List NormalizedBBox)) × (List (Int × List ℚ))))
      (imgs : List ImageNms),
      countPass st d priors vars pairs = .ok imgs → imgs.length = pairs.length := by
  intro pairs
  induction pairs with
  | nil =>
    intro imgs h
    simp only [countPass] at h
    cases h
    rfl
  | cons pr rest ih =>
    intro imgs h
    obtain ⟨lp, cs⟩ := pr
    simp only [countPass] at h
    obtain ⟨img1, himg1, h2⟩ := exceptBind_ok h
    obtain ⟨imgs1, himgs1, h3⟩ := exceptBind_ok h2
    cases h3
    simp [ih imgs1 himgs1]

theorem mem_zipWith3 {α β γ δ : Type} {f : α → β → γ → δ} :
    ∀ {as : List α} {bs : List β} {cs : List γ} {x : δ},
      x ∈ zipWith3 f as bs cs → ∃ a b c, x = f a b c := by
  intro as
  induction as with
  | nil => intro bs cs x hx; simp [zipWith3] at hx
  | cons a as ih =>
    intro bs cs x hx
    cases bs with
    | nil => simp [zipWith3] at hx
    | cons b bs =>
      cases cs with
      | nil => simp [zipWith3] at hx
      | cons c cs =>
        simp only [zipWith3, List.mem_cons] at hx
        rcases hx with hx | hx
        · exact ⟨a, b, c, hx⟩
        · exact ih hx

theorem decodeImageLoop_mem (st : LayerState) (d : DecodeFun)
    (priors : List NormalizedBBox) (vars : List (List ℚ))
    (locPred : List (Int × List NormalizedBBox)) :
    ∀ (cs : List Nat) (dB : List (Int × List NormalizedBBox)),
      decodeImageLoop st d priors vars locPred cs = .ok dB →
      ∀ e ∈ dB, ∃ locs, e.2 = DecodeBBoxes d priors vars locs := by
  intro cs
  induction cs with
  | nil =>
    intro dB h e he
    simp only [decodeImageLoop] at h
    cases h
    simp at he
  | cons c cs ih =>
    intro dB h e he
    simp only [decodeImageLoop] at h
    split at h
    · exact ih dB h e he
    · cases hf : alFind locPred (locLabelOf st c) with
      | none => rw [hf] at h; cases h
      | some locs =>
        rw [hf] at h
        simp only at h
        obtain ⟨rest, hrest, hcons⟩ := exceptBind_ok h
        cases hcons
        rcases List.mem_cons.mp he with he1 | he2
        · subst he1
          exact ⟨locs, rfl⟩
        · exact ih rest hrest e he2

theorem packEntries_records (st : LayerState) (i : Nat)
    (decodeB : List (Int × List NormalizedBBox))
    (confScores : List (Int × List ℚ)) (nameCount : Nat) :
    ∀ (entries : List (Int × List Nat)) (rs : List Record) (ls : List SaveLine),
      packEntries st i decodeB confScores nameCount entries = .ok (rs, ls) →
      ∀ r ∈ rs, ∃ label idxs bboxes idx, (label, idxs) ∈ entries ∧
        alFind decodeB (locLabelOfInt st label) = some bboxes ∧
        idx ∈ idxs ∧ r = mkRecord i label confScores bboxes idx := by
  intro entries
  induction entries with
  | nil =>
    intro rs ls h r hr
    simp only [packEntries] at h
    cases h
    simp at hr
  | cons ent rest ih =>
    intro rs ls h r hr
    obtain ⟨label, idxs⟩ := ent
    simp only [packEntries] at h
    cases hf : alFind decodeB (locLabelOfInt st label) with
    | none => rw [hf] at h; cases h
    | some bboxes =>
      rw [hf] at h
      simp only at h
      have hmain : ∀ (rs2 : List Record) (ls2 : List SaveLine),
          packEntries st i decodeB confScores nameCount rest = .ok (rs2, ls2) →
          rs = idxs.map (mkRecord i label confScores bboxes) ++ rs2 →
          ∃ label2 idxs2 bboxes2 idx, (label2, idxs2) ∈ (label, idxs) :: rest ∧
            alFind decodeB (locLabelOfInt st label2) = some bboxes2 ∧
            idx ∈ idxs2 ∧ r = mkRecord i label2 confScores bboxes2 idx := by
        intro rs2 ls2 hrest hreq
        subst hreq
        rcases List.mem_append.mp hr with hmem | hmem
        · obtain ⟨idx, hidx, hmk⟩ := List.mem_map.mp hmem
          exact ⟨label, idxs, bboxes, idx, List.mem_cons_self _ _, hf, hidx, hmk.symm⟩
        · obtain ⟨l2, i2, b2, x2, hm2, hf2, hx2, he2⟩ := ih rs2 ls2 hrest r hmem
          exact ⟨l2, i2, b2, x2, List.mem_cons_of_mem _ hm2, hf2, hx2, he2⟩
      split at h
      · cases hln : alFind st.label_to_name label with
        | none => rw [hln] at h; cases h
        | some clsName =>
          rw [hln] at h
          simp only at h
          split at h
          · obtain ⟨⟨rs2, ls2⟩, hrest, hcons⟩ := exceptBind_ok h
            cases hcons
            exact hmain rs2 ls2 hrest rfl
          · cases h
      · obtain ⟨⟨rs2, ls2⟩, hrest, hcons⟩ := exceptBind_ok h
        cases hcons
        exact hmain rs2 ls2 hrest rfl

theorem packEntries_length (st : LayerState) (i : Nat)
    (decodeB : List (Int × List NormalizedBBox))
    (confScores : List (Int × List ℚ)) (nameCount : Nat) :
    ∀ (entries : List (Int × List Nat)) (rs : List Record) (ls : List SaveLine),
      packEntries st i decodeB confScores nameCount entries = .ok (rs, ls) →
      rs.length = (entries.map fun e => e.2.length).sum := by
  intro entries
  induction entries with
  | nil =>
    intro rs ls h
    simp only [packEntries] at h
    cases h
    rfl
  | cons ent rest ih =>
    intro rs ls h
    obtain ⟨label, idxs⟩ := ent
    simp only [packEntries] at h
    cases hf : alFind decodeB (locLabelOfInt st label) with
    | none => rw [hf] at h; cases h
    | some bboxes =>
      rw [hf] at h
      simp only at h
      split at h
      · cases hln : alFind st.label_to_name label with
        | none => rw [hln] at h; cases h
        | some clsName =>
          rw [hln] at h
          simp only at h
          split at h
          · obtain ⟨⟨rs2, ls2⟩, hrest, hcons⟩ := exceptBind_ok h
            cases hcons
            simp [ih rs2 ls2 hrest]
          · cases h
      · obtain ⟨⟨rs2, ls2⟩, hrest, hcons⟩ := exceptBind_ok h
        cases hcons
        simp [ih rs2 ls2 hrest]

theorem packImages_records_prop (st : LayerState) (P : Record → Prop) :
    ∀ (pairs : List (ImageNms × List (Int × List ℚ))) (i0 nc0 : Nat)
      (rs : List Record) (ls : List SaveLine) (nc : Nat),
      (∀ pr ∈ pairs, ∀ (i nameCount : Nat) (rs2 : List Record) (ls2 : List SaveLine),
        packEntries st i pr.1.decodeB pr.2 nameCount pr.1.indices = .ok (rs2, ls2) →
        ∀ r ∈ rs2, P r) →
      packImages st i0 nc0 pairs = .ok (rs, ls, nc) →
      ∀ r ∈ rs, P r := by
  intro pairs
  induction pairs with
  | nil =>
    intro i0 nc0 rs ls nc hP h r hr
    simp only [packImages] at h
    cases h
    simp at hr
  | cons pr rest ih =>
    intro i0 nc0 rs ls nc hP h r hr
    obtain ⟨img, confScores⟩ := pr
    simp only [packImages] at h
    obtain ⟨⟨rs1, ls1⟩, hent, h2⟩ := exceptBind_ok h
    obtain ⟨⟨rs2, ls2, nc2⟩, hrest, h3⟩ := exceptBind_ok h2
    cases h3
    rcases List.mem_append.mp hr with hmem | hmem
    · exact hP (img, confScores) (List.mem_cons_self _ _) i0 nc0 rs1 ls1 hent r hmem
    · exact ih _ _ rs2 ls2 nc2
        (fun pr2 hpr2 => hP pr2 (List.mem_cons_of_mem _ hpr2)) hrest r hmem

theorem packImages_length (st : LayerState) :
    ∀ (pairs : List (ImageNms × List (Int × List ℚ))) (i0 nc0 : Nat)
      (rs : List Record) (ls : List SaveLine) (nc : Nat),
      packImages st i0 nc0 pairs = .ok (rs, ls, nc) →
      rs.length = (pairs.map fun pr => keptCount pr.1).sum := by
  intro pairs
  induction pairs with
  | nil =>
    intro i0 nc0 rs ls nc h
    simp only [packImages] at h
    cases h
    rfl
  | cons pr rest ih =>
    intro i0 nc0 rs ls nc h
    obtain ⟨img, confScores⟩ := pr
    simp only [packImages] at h
    obtain ⟨⟨rs1, ls1⟩, hent, h2⟩ := exceptBind_ok h
    obtain ⟨⟨rs2, ls2, nc2⟩, hrest, h3⟩ := exceptBind_ok h2
    cases h3
    have h1 := packEntries_length st i0 img.decodeB confScores nc0 img.indices rs1 ls1 hent
    have hr := ih _ _ rs2 ls2 nc2 hrest
    simp [h1, hr, keptCount]

/-! ### Clipping lemmas -/

theorem clampUnit_nonneg (q : ℚ) : 0 ≤ clampUnit q := le_max_right _ _

theorem clampUnit_le_one (q : ℚ) : clampUnit q ≤ 1 := by
  unfold clampUnit
  rcases le_total q 1 with h | h
  · simp [min_eq_left h, h]
  · simp [min_eq_right h]

theorem clampUnit_mono {q r : ℚ} (h : q ≤ r) : clampUnit q ≤ clampUnit r :=
  max_le_max (min_le_min h le_rfl) le_rfl

theorem ClipBBox_bounds (b : NormalizedBBox) :
    0 ≤ (ClipBBox b).xmin ∧ (ClipBBox b).xmin ≤ 1 ∧
    0 ≤ (ClipBBox b).ymin ∧ (ClipBBox b).ymin ≤ 1 ∧
    0 ≤ (ClipBBox b).xmax ∧ (ClipBBox b).xmax ≤ 1 ∧
    0 ≤ (ClipBBox b).ymax ∧ (ClipBBox b).ymax ≤ 1 :=
  ⟨clampUnit_nonneg _, clampUnit_le_one _, clampUnit_nonneg _, clampUnit_le_one _,
   clampUnit_nonneg _, clampUnit_le_one _, clampUnit_nonneg _, clampUnit_le_one _⟩

theorem ClipBBox_ordered {b : NormalizedBBox} (h : b.Ordered) :
    (ClipBBox b).Ordered :=
  ⟨clampUnit_mono h.1, clampUnit_mono h.2⟩

theorem zeroBox_ordered : zeroBox.Ordered := ⟨le_refl 0, le_refl 0⟩

theorem getD_ordered {bs : List NormalizedBBox}
    (h : ∀ b ∈ bs, b.Ordered) (idx : Nat) : (bs.getD idx zeroBox).Ordered := by
  by_cases hlt : idx < bs.length
  · rw [List.getD_eq_getElem bs zeroBox hlt]
    exact h _ (List.getElem_mem hlt)
  · rw [List.getD_eq_default bs zeroBox (Nat.le_of_not_lt hlt)]
    exact zeroBox_ordered

theorem Forward_ok {st : LayerState} {d : DecodeFun}
    {locData confData priorData : List ℚ} {num numPriors : Nat}
    {out : ForwardOutput}
    (h : Forward st d locData confData priorData num numPriors = .ok out) :
    ∃ imgs packed,
      countPass st d (GetPriorBBoxes priorData numPriors).1
        (GetPriorBBoxes priorData numPriors).2
        ((GetLocPredictions locData num numPriors st.locClasses st.share_location).zip
          (GetConfidenceScores confData num numPriors st.num_classes)) = .ok imgs ∧
      packImages st 0 st.name_count
        (imgs.zip (GetConfidenceScores confData num numPriors st.num_classes)) = .ok packed ∧
      out = ⟨[1, 1, totalKept imgs, 7], packed.1, packed.2.1, packed.2.2⟩ := by
  simp only [Forward] at h
  obtain ⟨imgs, himgs, h2⟩ := exceptBind_ok h
  obtain ⟨packed, hpacked, h3⟩ := exceptBind_ok h2
  cases h3
  exact ⟨imgs, packed, himgs, hpacked, rfl⟩

/-! ### Example inputs (used by the witness theorems) -/

/-- Example state: two classes, shared locations, class 0 is background,
overlap threshold 1/2, top-k 2, persistence off. -/
def exSt : LayerState :=
  { num_classes := 2, share_location := true, background_label_id := 0,
    nms_threshold := 1/2, top_k := 2, need_save := false,
    label_to_name := [], names := [], sizes := [], name_count := 0,
    output_name_prfx := "" }

/-- Example decode transform: pass the encoded prediction through. -/
def exDecode : DecodeFun := fun _ _ l => l

/-- Example decode transform: constant zero box (all outputs ordered). -/
def exDecodeZero : DecodeFun := fun _ _ _ => zeroBox

/-- Example location buffer: one image, two anchors, shared mode. -/
def exLoc : List ℚ := [0, 0, 1/2, 1/2, 1/4, 1/4, 3/4, 3/4]

/-- Example confidence buffer: one image, two anchors, two classes. -/
def exConf : List ℚ := [1/10, 9/10, 2/10, 8/10]

/-- Example prior buffer: two unit-frame anchors, unit variances. -/
def exPrior : List ℚ := [0, 0, 1, 1, 0, 0, 1, 1, 1, 1, 1, 1, 1, 1, 1, 1]

/-- First-pass result of the example run under `exDecode`. -/
def exImgs : List ImageNms :=
  [⟨[(-1, [⟨0, 0, 1/2, 1/2⟩, ⟨1/4, 1/4, 3/4, 3/4⟩])], [(1, [0, 1])]⟩]

/-- Forward output of the example run under `exDecode`. -/
def exOut : ForwardOutput :=
  ⟨[1, 1, 2, 7],
   [⟨0, 1, 9/10, 0, 0, 1/2, 1/2⟩, ⟨0, 1, 4/5, 1/4, 1/4, 3/4, 3/4⟩],
   [], 0⟩

/-! ### The claims -/

/-- C1: for every forward pass, the number of 7-field records written to the
output buffer equals the sum, over all images and all non-background
classes, of the sizes of the kept-index lists produced by suppression
(`totalKept imgs` for the first-pass result `imgs`), and the output buffer
shape is `(1, 1, num_kept, 7)` computed from that completed first pass. -/
theorem records_count_eq_total_kept (st : LayerState) (d : DecodeFun)
    (locData confData priorData : List ℚ) (num numPriors : Nat)
    (imgs : List ImageNms) (out : ForwardOutput)
    (hc : countPass st d (GetPriorBBoxes priorData numPriors).1
        (GetPriorBBoxes priorData numPriors).2
        ((GetLocPredictions locData num numPriors st.locClasses st.share_location).zip
          (GetConfidenceScores confData num numPriors st.num_classes)) = .ok imgs)
    (h : Forward st d locData confData priorData num numPriors = .ok out) :
    out.topShape = [1, 1, totalKept imgs, 7] ∧
    out.records.length = totalKept imgs := by
  obtain ⟨imgs2, packed, hc2, hpacked, hout⟩ := Forward_ok h
  rw [hc] at hc2
  cases hc2
  subst hout
  refine ⟨rfl, ?_⟩
  have hlen := packImages_length st
    (imgs.zip (GetConfidenceScores confData num numPriors st.num_classes))
    0 st.name_count packed.1 packed.2.1 packed.2.2 (by simpa using hpacked)
  have hle : imgs.length ≤
      (GetConfidenceScores confData num numPriors st.num_classes).length := by
    have h1 := countPass_length st d _ _ _ imgs hc
    rw [h1, List.length_zip]
    exact Nat.min_le_right _ _
  have hfst := List.map_fst_zip imgs
    (GetConfidenceScores confData num numPriors st.num_classes) hle
  rw [hlen]
  unfold totalKept
  set z := imgs.zip (GetConfidenceScores confData num numPriors st.num_classes) with hz
  rw [← hfst, List.map_map]
  rfl

/-- Witness for C1: the example forward run keeps two detections, and the
output shape and record count both equal that total. -/
theorem records_count_eq_total_kept_witness :
    exOut.topShape = [1, 1, totalKept exImgs, 7] ∧
    exOut.records.length = totalKept exImgs :=
  records_count_eq_total_kept exSt exDecode exLoc exConf exPrior 1 2
    exImgs exOut (by rfl) (by rfl)

/-- C2: every box emitted into the output buffer (fields 3..6 of each
record) has all four coordinates in `[0,1]` and satisfies `xmin ≤ xmax` and
`ymin ≤ ymax`, because each decoded box is clipped to the unit frame before
being written.  The ordering half additionally uses that the decode
transform emits ordered boxes (the centre/size decoding of the spec always
does); the `[0,1]` bounds hold for any decode transform. -/
theorem emitted_boxes_clipped (st : LayerState) (d : DecodeFun)
    (locData confData priorData : List ℚ) (num numPriors : Nat)
    (out : ForwardOutput)
    (hd : ∀ p v l, (d p v l).Ordered)
    (h : Forward st d locData confData priorData num numPriors = .ok out) :
    ∀ r ∈ out.records,
      0 ≤ r.xmin ∧ r.xmin ≤ 1 ∧ 0 ≤ r.ymin ∧ r.ymin ≤ 1 ∧
      0 ≤ r.xmax ∧ r.xmax ≤ 1 ∧ 0 ≤ r.ymax ∧ r.ymax ≤ 1 ∧
      r.xmin ≤ r.xmax ∧ r.ymin ≤ r.ymax := by
  obtain ⟨imgs, packed, hc, hpacked, hout⟩ := Forward_ok h
  subst hout
  intro r hr
  refine packImages_records_prop st
    (fun r => 0 ≤ r.xmin ∧ r.xmin ≤ 1 ∧ 0 ≤ r.ymin ∧ r.ymin ≤ 1 ∧
      0 ≤ r.xmax ∧ r.xmax ≤ 1 ∧ 0 ≤ r.ymax ∧ r.ymax ≤ 1 ∧
      r.xmin ≤ r.xmax ∧ r.ymin ≤ r.ymax) _ 0 st.name_count
    packed.1 packed.2.1 packed.2.2 ?_ hpacked r hr
  intro pr hpr i nameCount rs2 ls2 hent r2 hr2
  obtain ⟨img, cs⟩ := pr
  obtain ⟨label, idxs, bboxes, idx, hmem, hfind, hidx, hrec⟩ :=
    packEntries_records st i img.decodeB cs nameCount img.indices rs2 ls2 hent r2 hr2
  have himg : img ∈ imgs := (List.of_mem_zip hpr).1
  obtain ⟨pairIn, hpairIn, hproc⟩ := countPass_mem st d _ _ _ imgs hc img himg
  have hvals := decodeImageLoop_mem st d _ _ pairIn.1
    (List.range st.locClasses) img.decodeB (processImage_ok hproc).1
  obtain ⟨locs, hlocs⟩ := hvals _ (alFind_mem hfind)
  have hbOrd : ∀ b ∈ bboxes, b.Ordered := by
    intro b hb
    have hb2 : b ∈ DecodeBBoxes d (GetPriorBBoxes priorData numPriors).1
        (GetPriorBBoxes priorData numPriors).2 locs := by
      rw [← hlocs]; exact hb
    obtain ⟨p, v, l, hb3⟩ := mem_zipWith3 hb2
    rw [hb3]; exact hd p v l
  have hOrd := getD_ordered hbOrd idx
  have hclip := ClipBBox_bounds (bboxes.getD idx zeroBox)
  have hclipOrd := ClipBBox_ordered hOrd
  rw [hrec]
  simp only [mkRecord]
  exact ⟨hclip.1, hclip.2.1, hclip.2.2.1, hclip.2.2.2.1, hclip.2.2.2.2.1,
    hclip.2.2.2.2.2.1, hclip.2.2.2.2.2.2.1, hclip.2.2.2.2.2.2.2,
    hclipOrd.1, hclipOrd.2⟩

/-- Forward output of the example run under the constant-zero decode
transform. -/
def exOutZero : ForwardOutput :=
  ⟨[1, 1, 2, 7], [⟨0, 1, 9/10, 0, 0, 0, 0⟩, ⟨0, 1, 4/5, 0, 0, 0, 0⟩], [], 0⟩

/-- Witness for C2: the first record of the example run satisfies the clip
invariant. -/
theorem emitted_boxes_clipped_witness :
    0 ≤ (⟨0, 1, 9/10, 0, 0, 0, 0⟩ : Record).xmin ∧
    (⟨0, 1, 9/10, 0, 0, 0, 0⟩ : Record).xmin ≤ 1 ∧
    0 ≤ (⟨0, 1, 9/10, 0, 0, 0, 0⟩ : Record).ymin ∧
    (⟨0, 1, 9/10, 0, 0, 0, 0⟩ : Record).ymin ≤ 1 ∧
    0 ≤ (⟨0, 1, 9/10, 0, 0, 0, 0⟩ : Record).xmax ∧
    (⟨0, 1, 9/10, 0, 0, 0, 0⟩ : Record).xmax ≤ 1 ∧
    0 ≤ (⟨0, 1, 9/10, 0, 0, 0, 0⟩ : Record).ymax ∧
    (⟨0, 1, 9/10, 0, 0, 0, 0⟩ : Record).ymax ≤ 1 ∧
    (⟨0, 1, 9/10, 0, 0, 0, 0⟩ : Record).xmin ≤ (⟨0, 1, 9/10, 0, 0, 0, 0⟩ : Record).xmax ∧
    (⟨0, 1, 9/10, 0, 0, 0, 0⟩ : Record).ymin ≤ (⟨0, 1, 9/10, 0, 0, 0, 0⟩ : Record).ymax :=
  emitted_boxes_clipped exSt exDecodeZero exLoc exConf exPrior 1 2 exOutZero
    (fun _ _ _ => ⟨le_refl 0, le_refl 0⟩) (by rfl)
    ⟨0, 1, 9/10, 0, 0, 0, 0⟩ (by decide)

/-- C3: the background class never reaches the output: no kept-index entry
of the first pass carries `background_label_id`, and no record of the
output buffer has it as its label field. -/
theorem no_background_label_in_output (st : LayerState) (d : DecodeFun)
    (locData confData priorData : List ℚ) (num numPriors : Nat)
    (imgs : List ImageNms) (out : ForwardOutput)
    (hc : countPass st d (GetPriorBBoxes priorData numPriors).1
        (GetPriorBBoxes priorData numPriors).2
        ((GetLocPredictions locData num numPriors st.locClasses st.share_location).zip
          (GetConfidenceScores confData num numPriors st.num_classes)) = .ok imgs)
    (h : Forward st d locData confData priorData num numPriors = .ok out) :
    (∀ img ∈ imgs, ∀ e ∈ img.indices, e.1 ≠ st.background_label_id) ∧
    (∀ r ∈ out.records, r.label ≠ (st.background_label_id : ℚ)) := by
  have hkey : ∀ img ∈ imgs, ∀ e ∈ img.indices, e.1 ≠ st.background_label_id := by
    intro img himg e he
    obtain ⟨pr, hpr, hproc⟩ := countPass_mem st d _ _ _ imgs hc img himg
    exact (nmsImageLoop_mem st pr.2 img.decodeB (List.range st.num_classes)
      img.indices (processImage_ok hproc).2 e he).1
  refine ⟨hkey, ?_⟩
  obtain ⟨imgs2, packed, hc2, hpacked, hout⟩ := Forward_ok h
  rw [hc] at hc2
  cases hc2
  subst hout
  intro r hr
  refine packImages_records_prop st
    (fun r => r.label ≠ (st.background_label_id : ℚ)) _ 0 st.name_count
    packed.1 packed.2.1 packed.2.2 ?_ hpacked r hr
  intro pr hpr i nameCount rs2 ls2 hent r2 hr2
  obtain ⟨img, cs⟩ := pr
  obtain ⟨label, idxs, bboxes, idx, hmem, hfind, hidx, hrec⟩ :=
    packEntries_records st i img.decodeB cs nameCount img.indices rs2 ls2 hent r2 hr2
  have himg : img ∈ imgs := (List.of_mem_zip hpr).1
  have hne : label ≠ st.background_label_id := hkey img himg (label, idxs) hmem
  rw [hrec]
  simp only [mkRecord]
  exact fun hcast => hne (Int.cast_injective hcast)

/-- Witness for C3: in the example run the sole kept-index entry has label
1 and the label field of the first record differs from the background id. -/
theorem no_background_label_in_output_witness :
    (((1 : Int), ([0, 1] : List Nat)).1 ≠ exSt.background_label_id) ∧
    ((⟨0, 1, 9/10, 0, 0, 1/2, 1/2⟩ : Record).label ≠ ((exSt.background_label_id : Int) : ℚ)) := by
  have h := no_background_label_in_output exSt exDecode exLoc exConf exPrior 1 2
    exImgs exOut (by rfl) (by rfl)
  exact ⟨h.1 ⟨[(-1, [⟨0, 0, 1/2, 1/2⟩, ⟨1/4, 1/4, 3/4, 3/4⟩])], [(1, [0, 1])]⟩
      (by decide) ((1 : Int), ([0, 1] : List Nat)) (by decide),
    h.2 ⟨0, 1, 9/10, 0, 0, 1/2, 1/2⟩ (by decide)⟩

/-- C6: when `top_k` is configured to `k ≥ 0`, suppression considers at
most the k highest-scoring candidates, so every per-class kept-index list
of the first pass has size at most k. -/
theorem topk_bounds_kept_size (st : LayerState) (d : DecodeFun)
    (priors : List NormalizedBBox) (vars : List (List ℚ))
    (pairs : List ((List (Int × List NormalizedBBox)) × (List (Int × List ℚ))))
    (imgs : List ImageNms) (k : Int)
    (hk : st.top_k = k) (hk0 : 0 ≤ k)
    (hc : countPass st d priors vars pairs = .ok imgs) :
    ∀ img ∈ imgs, ∀ e ∈ img.indices, e.2.length ≤ k.toNat := by
  intro img himg e he
  obtain ⟨pr, hpr, hproc⟩ := countPass_mem st d priors vars pairs imgs hc img himg
  obtain ⟨hbg, bboxes, scores, hfind, hconf, hnms⟩ :=
    nmsImageLoop_mem st pr.2 img.decodeB (List.range st.num_classes)
      img.indices (processImage_ok hproc).2 e he
  rw [hnms, ← hk]
  subst hk
  exact ApplyNMS_length_le bboxes scores st.nms_threshold hk0

/-- Witness for C6: in the example run (`top_k = 2`) the kept-index list of
class 1 has at most 2 entries. -/
theorem topk_bounds_kept_size_witness :
    (((1 : Int), ([0, 1] : List Nat)).2.length ≤ (2 : Int).toNat) :=
  topk_bounds_kept_size exSt exDecode (GetPriorBBoxes exPrior 2).1
    (GetPriorBBoxes exPrior 2).2
    ((GetLocPredictions exLoc 1 2 exSt.locClasses exSt.share_location).zip
      (GetConfidenceScores exConf 1 2 exSt.num_classes))
    exImgs 2 rfl (by decide) (by rfl)
    ⟨[(-1, [⟨0, 0, 1/2, 1/2⟩, ⟨1/4, 1/4, 3/4, 3/4⟩])], [(1, [0, 1])]⟩ (by decide)
    ((1 : Int), ([0, 1] : List Nat)) (by decide)

/-- C8: the forward pass is deterministic — two runs on identical
configuration state, decode transform and input buffers produce identical
suppression results, record ordering and output buffer.  The embedding is a
pure function of exactly these inputs: the C++ forward pass reads no other
mutable state, uses no randomness, and its candidate ordering
(`sortByScore`) resolves score ties by the original index. -/
theorem forward_deterministic (st1 st2 : LayerState) (d1 d2 : DecodeFun)
    (loc1 loc2 conf1 conf2 prior1 prior2 : List ℚ) (num1 num2 np1 np2 : Nat)
    (hst : st1 = st2) (hd : d1 = d2) (hl : loc1 = loc2) (hc : conf1 = conf2)
    (hp : prior1 = prior2) (hn : num1 = num2) (hnp : np1 = np2) :
    Forward st1 d1 loc1 conf1 prior1 num1 np1 =
      Forward st2 d2 loc2 conf2 prior2 num2 np2 := by
  subst hst
  subst hd
  subst hl
  subst hc
  subst hp
  subst hn
  subst hnp
  rfl

/-- Witness for C8: two identical example runs agree. -/
theorem forward_deterministic_witness :
    Forward exSt exDecode exLoc exConf exPrior 1 2 =
      Forward exSt exDecode exLoc exConf exPrior 1 2 :=
  forward_deterministic exSt exSt exDecode exDecode exLoc exLoc exConf exConf
    exPrior exPrior 1 1 2 2 rfl rfl rfl rfl rfl rfl rfl

/-- C5: structural/consistency errors are fatal and short-circuit with no
partial output: a location label absent from the decoded-prediction map
(during decoding or before suppression), a non-background class absent from
the confidence map, and prediction channel counts inconsistent with the
prior-derived anchor count each produce an error immediately instead of
being skipped. -/
theorem structural_errors_fatal :
    (∀ (st : LayerState) (d : DecodeFun) (priors : List NormalizedBBox)
        (vars : List (List ℚ)) (locPred : List (Int × List NormalizedBBox))
        (c : Nat) (cs : List Nat),
      locLabelOf st c ≠ st.background_label_id →
      alFind locPred (locLabelOf st c) = none →
      decodeImageLoop st d priors vars locPred (c :: cs) =
        .error (.decodeNoLocPred (locLabelOf st c))) ∧
    (∀ (st : LayerState) (confScores : List (Int × List ℚ))
        (decodeB : List (Int × List NormalizedBBox)) (c : Nat) (cs : List Nat),
      (c : Int) ≠ st.background_label_id →
      alFind confScores (c : Int) = none →
      nmsImageLoop st confScores decodeB (c :: cs) =
        .error (.nmsNoConfPred (c : Int))) ∧
    (∀ (st : LayerState) (confScores : List (Int × List ℚ))
        (decodeB : List (Int × List NormalizedBBox)) (c : Nat) (cs : List Nat)
        (scores : List ℚ),
      (c : Int) ≠ st.background_label_id →
      alFind confScores (c : Int) = some scores →
      alFind decodeB (locLabelOf st c) = none →
      nmsImageLoop st confScores decodeB (c :: cs) =
        .error (.nmsNoLocPred (locLabelOf st c))) ∧
    (∀ (st : LayerState) (n0 ch0 n1 ch1 h2 : Nat), n0 = n1 →
      ((h2 / 4) * st.locClasses * 4 ≠ ch0 →
        Reshape st n0 ch0 n1 ch1 h2 = .error .locChannelsMismatch) ∧
      ((h2 / 4) * st.locClasses * 4 = ch0 → (h2 / 4) * st.num_classes ≠ ch1 →
        Reshape st n0 ch0 n1 ch1 h2 = .error .confChannelsMismatch)) := by
  refine ⟨?_, ?_, ?_, ?_⟩
  · intro st d priors vars locPred c cs hbg hfind
    simp only [decodeImageLoop, if_neg hbg, hfind]
  · intro st confScores decodeB c cs hbg hfind
    simp only [nmsImageLoop, if_neg hbg, hfind]
  · intro st confScores decodeB c cs scores hbg hconf hdec
    simp only [nmsImageLoop, if_neg hbg, hconf, hdec]
  · intro st n0 ch0 n1 ch1 h2 hn
    subst hn
    constructor
    · intro hm
      simp only [Reshape]
      rw [if_neg (fun hh => hh rfl), if_pos hm]
    · intro heq hm
      simp only [Reshape]
      rw [if_neg (fun hh => hh rfl), if_neg (fun hh => hh heq), if_pos hm]

/-- Witness for C5: each structural error fires on a concrete input. -/
theorem structural_errors_fatal_witness :
    decodeImageLoop exSt exDecode [] [] [] [1] =
      .error (.decodeNoLocPred (-1)) ∧
    nmsImageLoop exSt [] [] [1] = .error (.nmsNoConfPred 1) ∧
    nmsImageLoop exSt [((1 : Int), ([] : List ℚ))] [] [1] =
      .error (.nmsNoLocPred (-1)) ∧
    Reshape exSt 1 5 1 7 8 = .error .locChannelsMismatch ∧
    Reshape exSt 1 8 1 7 8 = .error .confChannelsMismatch := by
  refine ⟨?_, ?_, ?_, ?_, ?_⟩
  · have h := structural_errors_fatal.1 exSt exDecode [] [] [] 1 []
      (by decide) (by rfl)
    simpa using h
  · exact structural_errors_fatal.2.1 exSt [] [] 1 [] (by decide) (by rfl)
  · have h := structural_errors_fatal.2.2.1 exSt [((1 : Int), ([] : List ℚ))] [] 1 []
      ([] : List ℚ) (by decide) (by decide) (by rfl)
    simpa using h
  · exact (structural_errors_fatal.2.2.2 exSt 1 5 1 7 8 rfl).1 (by decide)
  · exact (structural_errors_fatal.2.2.2 exSt 1 8 1 7 8 rfl).2 (by decide) (by decide)

/-! ### C4: setup error handling -/

/-- Example configuration: VOC output with both persistence files named. -/
def exParamVOC : DetectionOutputParameter :=
  { num_classes := some 2, share_location := true, background_label_id := 0,
    nms_threshold := 1/2, top_k := some 3, output_directory := "out",
    output_name_prfx := "comp_", output_format := "VOC",
    label_map_file := "labelmap.prototxt", name_size_file := "test.txt" }

/-- Environment in which the label map file exists but is malformed. -/
def exEnvBadLabelMap : SetupEnv :=
  { is_directory := fun _ => true, create_directories := fun _ => true,
    read_label_map := fun _ => none, name_size_good := fun _ => true,
    name_size_entries := fun _ => [("img1", 200, 100)] }

/-- Environment in which the name/size file cannot be opened. -/
def exEnvBadNameSize : SetupEnv :=
  { is_directory := fun _ => true, create_directories := fun _ => true,
    read_label_map := fun _ => some [(0, "bg"), (1, "cat")],
    name_size_good := fun _ => false, name_size_entries := fun _ => [] }

/-- Counterexample to C4 as stated: with output format "VOC" and a
non-empty but malformed label map file, `LayerSetUp` aborts fatally
(`CHECK(ReadProtoFromTextFile(...))`, lines 50-53) instead of degrading
gracefully by disabling persistence with a warning. -/
theorem malformed_label_map_aborts_setup :
    LayerSetUp exParamVOC exEnvBadLabelMap = .error .labelMapReadFailed := by
  rfl

/-- C4 amended: at setup, only a *missing* (empty-path) label map file or
name/size file under the "VOC" output format degrades gracefully —
persistence is disabled with a warning and setup succeeds; a malformed
(non-empty) label map file and an unreadable (non-empty) name/size file are
fatal, as is a missing required `num_classes`. -/
theorem setup_error_handling (p : DetectionOutputParameter) (env : SetupEnv)
    (n : Nat)
    (hn : p.num_classes = some n) (ht : ¬ p.nms_threshold < 0)
    (hdir : env.is_directory p.output_directory = true)
    (hfmt : p.output_format = "VOC") :
    (p.label_map_file = "" →
      (p.name_size_file = "" ∨ env.name_size_good p.name_size_file = true) →
      ∃ r, LayerSetUp p env = .ok r ∧ r.state.need_save = false ∧
        r.warnings ≠ []) ∧
    (p.label_map_file ≠ "" → env.read_label_map p.label_map_file = none →
      LayerSetUp p env = .error .labelMapReadFailed) ∧
    (∀ m, p.label_map_file ≠ "" → env.read_label_map p.label_map_file = some m →
      p.name_size_file ≠ "" → env.name_size_good p.name_size_file = false →
      LayerSetUp p env = .error .nameSizeOpenFailed) ∧
    (∀ (p2 : DetectionOutputParameter), p2.num_classes = none →
      LayerSetUp p2 env = .error .missingNumClasses) := by
  have hnotdir : ¬ (p.output_directory ≠ "" ∧
      ¬ env.is_directory p.output_directory = true ∧
      ¬ env.create_directories p.output_directory = true) := by
    intro hcon
    exact hcon.2.1 hdir
  refine ⟨?_, ?_, ?_, ?_⟩
  · intro hlm hns
    rcases hns with hns | hns
    · simp [LayerSetUp, hn, if_neg ht, hdir, if_pos hfmt, hlm, hns]
    · by_cases hne : p.name_size_file = ""
      · simp [LayerSetUp, hn, if_neg ht, hdir, if_pos hfmt, hlm, hne]
      · simp [LayerSetUp, hn, if_neg ht, hdir, if_pos hfmt, hlm, hne, hns]
  · intro hlm hread
    simp only [LayerSetUp, hn, if_neg ht, if_neg hnotdir, if_pos hfmt,
      if_neg hlm, hread]
  · intro m hlm hread hns hgood
    simp only [LayerSetUp, hn, if_neg ht, if_neg hnotdir, if_pos hfmt,
      if_neg hlm, hread, if_neg hns, hgood]
    simp
  · intro p2 hp2
    simp only [LayerSetUp, hp2]

/-- Witness for C4 (amended): the unreadable name/size file branch fires on
a concrete configuration. -/
theorem setup_error_handling_witness :
    LayerSetUp exParamVOC exEnvBadNameSize = .error .nameSizeOpenFailed :=
  (setup_error_handling exParamVOC exEnvBadNameSize 2 rfl (by decide) rfl
    rfl).2.2.1 [(0, "bg"), (1, "cat")] (by decide) rfl (by decide) rfl

/-! ### C7: the persistence scenario -/

/-- Example state with persistence enabled: class 1 is "cat", one external
image named "img1" of size (height 200, width 100). -/
def exStSave : LayerState :=
  { num_classes := 2, share_location := true, background_label_id := 0,
    nms_threshold := 1/2, top_k := 1, need_save := true,
    label_to_name := [(1, "cat")], names := ["img1"], sizes := [(200, 100)],
    name_count := 0, output_name_prfx := "comp_" }

/-- Location buffer encoding the single box (0.1, 0.1, 0.5, 0.5). -/
def exLocP : List ℚ := [1/10, 1/10, 1/2, 1/2]

/-- Confidence buffer: background 0.1, class 1 at 0.9. -/
def exConfP : List ℚ := [1/10, 9/10]

/-- Prior buffer: one unit-frame anchor with unit variances. -/
def exPriorP : List ℚ := [0, 0, 1, 1, 1, 1, 1, 1]

/-- C7: with persistence enabled, the pixel coordinates of each persisted
line are the clipped normalised box rescaled by the externally supplied
(height, width) and truncated toward zero; for the kept detection with
clipped box (0.1, 0.1, 0.5, 0.5) and image size (200, 100) the persisted
pixel coordinates are exactly (20, 10, 100, 50).  The two `truncToZero`
conjuncts pin the truncation direction on a non-integral value. -/
theorem persisted_line_scenario :
    Forward exStSave exDecode exLocP exConfP exPriorP 1 1 =
      .ok ⟨[1, 1, 1, 7],
        [⟨0, 1, 9/10, 1/10, 1/10, 1/2, 1/2⟩],
        [⟨"comp_cat.txt", "img1", 9/10, 20, 10, 100, 50⟩], 1⟩ ∧
    truncToZero (7/2) = 3 ∧ truncToZero (-7/2) = -3 := by
  exact ⟨by rfl, by rfl, by rfl⟩

/-! ### C9: the image-counter bounds check -/

/-- Example state for the C9 counterexample: persistence on, an *empty*
name list, and `top_k = 0` so that suppression keeps nothing. -/
def exSt9 : LayerState :=
  { num_classes := 2, share_location := true, background_label_id := 0,
    nms_threshold := 1/2, top_k := 0, need_save := true,
    label_to_name := [(1, "cat")], names := [], sizes := [], name_count := 0,
    output_name_prfx := "comp_" }

/-- Counterexample to C9 as stated: every non-background class receives a
(possibly empty) kept-index entry (`indices[c]` is default-constructed by
`operator[]` at line 179), so an image with zero kept detections is still
bounds-checked.  Here the first pass keeps nothing, yet the forward pass
aborts with the image-counter bounds check instead of passing the end of
the name list without error. -/
theorem zero_kept_image_still_bounds_checked :
    totalKept ((countPass exSt9 exDecode (GetPriorBBoxes exPrior 2).1
      (GetPriorBBoxes exPrior 2).2
      ((GetLocPredictions exLoc 1 2 exSt9.locClasses exSt9.share_location).zip
        (GetConfidenceScores exConf 1 2 exSt9.num_classes))).toOption.getD []) = 0 ∧
    Forward exSt9 exDecode exLoc exConf exPrior 1 2 =
      .error .nameCountOutOfRange := by
  exact ⟨by rfl, by rfl⟩

theorem decodeImageLoop_shared_single (st : LayerState) (d : DecodeFun)
    (priors : List NormalizedBBox) (vars : List (List ℚ))
    (lp : List (Int × List NormalizedBBox)) (bs : List NormalizedBBox)
    (hs : st.share_location = true) (hbg : st.background_label_id = 0)
    (hfind : alFind lp (-1) = some bs) :
    decodeImageLoop st d priors vars lp (List.range st.locClasses) =
      .ok [(-1, DecodeBBoxes d priors vars bs)] := by
  have hloc : st.locClasses = 1 := by simp [LayerState.locClasses, hs]
  have hL : locLabelOf st 0 = -1 := by simp [locLabelOf, hs]
  rw [hloc, show List.range 1 = [0] from rfl]
  simp only [decodeImageLoop, hL, hbg]
  rw [if_neg (by decide), hfind]
  rfl

theorem nmsImageLoop_all_background (st : LayerState)
    (confScores : List (Int × List ℚ))
    (decodeB : List (Int × List NormalizedBBox))
    (hcls : st.num_classes = 1) (hbg : st.background_label_id = 0) :
    nmsImageLoop st confScores decodeB (List.range st.num_classes) = .ok [] := by
  rw [hcls, show List.range 1 = [0] from rfl]
  simp only [nmsImageLoop, hbg]
  rw [if_pos (by decide)]

theorem countPass_all_empty_indices (st : LayerState) (d : DecodeFun)
    (priors : List NormalizedBBox) (vars : List (List ℚ))
    (hs : st.share_location = true) (hcls : st.num_classes = 1)
    (hbg : st.background_label_id = 0) :
    ∀ (pairs : List ((List (Int × List NormalizedBBox)) × (List (Int × List ℚ)))),
      (∀ pr ∈ pairs, ∃ bs, alFind pr.1 (-1) = some bs) →
      ∃ imgs, countPass st d priors vars pairs = .ok imgs ∧
        imgs.length = pairs.length ∧ ∀ img ∈ imgs, img.indices = [] := by
  intro pairs
  induction pairs with
  | nil =>
    intro _
    exact ⟨[], rfl, rfl, by simp⟩
  | cons pr rest ih =>
    intro hall
    obtain ⟨bs, hbs⟩ := hall pr (List.mem_cons_self _ _)
    obtain ⟨imgs, himgs, hlen, hempty⟩ :=
      ih fun pr2 hpr2 => hall pr2 (List.mem_cons_of_mem _ hpr2)
    refine ⟨⟨[(-1, DecodeBBoxes d priors vars bs)], []⟩ :: imgs, ?_, by simp [hlen], ?_⟩
    · simp only [countPass, processImage,
        decodeImageLoop_shared_single st d priors vars pr.1 bs hs hbg hbs,
        nmsImageLoop_all_background st pr.2 _ hcls hbg]
      rw [himgs]
      rfl
    · intro img himg
      rcases List.mem_cons.mp himg with h1 | h2
      · rw [h1]
      · exact hempty img h2

theorem packImages_all_empty (st : LayerState) (hsave : st.need_save = true) :
    ∀ (pairs : List (ImageNms × List (Int × List ℚ))) (i0 nc0 : Nat),
      (∀ pr ∈ pairs, pr.1.indices = []) →
      packImages st i0 nc0 pairs = .ok ([], [], nc0 + pairs.length) := by
  intro pairs
  induction pairs with
  | nil => intro i0 nc0 _; simp [packImages]
  | cons pr rest ih =>
    intro i0 nc0 hall
    obtain ⟨img, cs⟩ := pr
    have hempty : img.indices = [] := hall (img, cs) (List.mem_cons_self _ _)
    have hrest := ih (i0 + 1) (nc0 + 1)
      fun pr2 hpr2 => hall pr2 (List.mem_cons_of_mem _ hpr2)
    simp [packImages, hempty, packEntries, hsave, hrest, Nat.add_assoc,
      Nat.add_comm, Nat.add_left_comm]
    rfl

theorem totalKept_all_empty {imgs : List ImageNms}
    (h : ∀ img ∈ imgs, img.indices = []) : totalKept imgs = 0 := by
  induction imgs with
  | nil => rfl
  | cons img rest ih =>
    have h1 : img.indices = [] := h img (List.mem_cons_self _ _)
    have h2 := ih fun im hm => h im (List.mem_cons_of_mem _ hm)
    simp [totalKept, keptCount, h1] at h2 ⊢
    exact h2

/-- C9 amended: whether the image-counter bounds check
(`CHECK_LT(name_count_, names_.size())`, line 216) runs for an image is
governed by its per-class indices map being nonempty, not by how many
detections were kept — every non-background class gets a (possibly empty)
entry, so an image with zero kept detections is still bounds-checked (see
the counterexample).  The indices map is empty only when every class is the
background class; then each image increments the counter without any
bounds check, and the pass succeeds even though the counter passes the end
of the (possibly empty) name list. -/
theorem empty_indices_skip_bounds_check (st : LayerState) (d : DecodeFun)
    (locData confData priorData : List ℚ) (num numPriors : Nat)
    (hs : st.share_location = true) (hcls : st.num_classes = 1)
    (hbg : st.background_label_id = 0) (hsave : st.need_save = true) :
    Forward st d locData confData priorData num numPriors =
      .ok ⟨[1, 1, 0, 7], [], [], st.name_count + num⟩ := by
  have hloc : st.locClasses = 1 := by simp [LayerState.locClasses, hs]
  have hkey : ∀ pr ∈ ((GetLocPredictions locData num numPriors st.locClasses
        st.share_location).zip
        (GetConfidenceScores confData num numPriors st.num_classes)),
      ∃ bs, alFind pr.1 (-1) = some bs := by
    intro pr hpr
    have h1 : pr.1 ∈ GetLocPredictions locData num numPriors st.locClasses
        st.share_location := by
      have := List.of_mem_zip (a := pr.1) (b := pr.2) (by simpa using hpr)
      exact this.1
    rw [GetLocPredictions, hloc, hs] at h1
    obtain ⟨i, hi, hpr1⟩ := List.mem_map.mp h1
    rw [← hpr1]
    simp [alFind, show List.range 1 = [0] from rfl]
  obtain ⟨imgs, himgs, hlen, hempty⟩ :=
    countPass_all_empty_indices st d (GetPriorBBoxes priorData numPriors).1
      (GetPriorBBoxes priorData numPriors).2 hs hcls hbg _ hkey
  have hziplen : ((GetLocPredictions locData num numPriors st.locClasses
      st.share_location).zip
      (GetConfidenceScores confData num numPriors st.num_classes)).length = num := by
    rw [List.length_zip, GetLocPredictions, GetConfidenceScores]
    simp
  have hpack := packImages_all_empty st hsave
    (imgs.zip (GetConfidenceScores confData num numPriors st.num_classes))
    0 st.name_count
    (by
      intro pr hpr
      exact hempty pr.1 (List.of_mem_zip (a := pr.1) (b := pr.2)
        (by simpa using hpr)).1)
  have hzlen2 : (imgs.zip (GetConfidenceScores confData num numPriors
      st.num_classes)).length = num := by
    rw [List.length_zip, hlen, hziplen, GetConfidenceScores]
    simp
  simp only [Forward, himgs, Bind.bind, Except.bind]
  rw [hpack, hzlen2, totalKept_all_empty hempty]

/-- Witness for the amended C9: a concrete two-image run with only the
background class, persistence on and an empty name list succeeds, the
counter ending at 2 — past the end of the name list — without any bounds
check firing. -/
theorem empty_indices_skip_bounds_check_witness :
    Forward
      { num_classes := 1, share_location := true, background_label_id := 0,
        nms_threshold := 1/2, top_k := -1, need_save := true,
        label_to_name := [(1, "cat")], names := [], sizes := [],
        name_count := 0, output_name_prfx := "comp_" }
      exDecode (exLoc ++ exLoc) (exConf ++ exConf) exPrior 2 2 =
      .ok ⟨[1, 1, 0, 7], [], [], 2⟩ :=
  empty_indices_skip_bounds_check
    { num_classes := 1, share_location := true, background_label_id := 0,
      nms_threshold := 1/2, top_k := -1, need_save := true,
      label_to_name := [(1, "cat")], names := [], sizes := [],
      name_count := 0, output_name_prfx := "comp_" }
    exDecode (exLoc ++ exLoc) (exConf ++ exConf) exPrior 2 2
    rfl rfl rfl rfl

/-! ### C10: shared locations with background_label_id = -1 -/

theorem nmsImageLoop_empty_decodeB_fatal (st : LayerState)
    (confScores : List (Int × List ℚ)) (scores : List ℚ)
    (hs : st.share_location = true) (hbg : st.background_label_id = -1)
    (hconf : alFind confScores 0 = some scores) (cs : List Nat) :
    nmsImageLoop st confScores [] (0 :: cs) = .error (.nmsNoLocPred (-1)) := by
  have hL : locLabelOf st 0 = -1 := by simp [locLabelOf, hs]
  simp only [nmsImageLoop]
  rw [if_neg (by rw [hbg]; decide)]
  rw [show ((0 : Nat) : Int) = (0 : Int) from rfl, hconf]
  simp only [hL]
  rfl

/-- C10: in shared-location mode the decoded-box map is keyed only by the
sentinel label -1, and decoding of that sole label is skipped when it
equals `background_label_id`; consequently, for every forward pass with
`share_location = true`, `background_label_id = -1`, at least one image and
at least one class, suppression hits the fatal
missing-location-predictions branch (line 175).  The layer therefore
implicitly requires `background_label_id ≠ -1` whenever locations are
shared. -/
theorem shared_location_background_minus_one_fatal (st : LayerState)
    (d : DecodeFun) (locData confData priorData : List ℚ)
    (num numPriors : Nat)
    (hs : st.share_location = true) (hbg : st.background_label_id = -1)
    (hnum : 0 < num) (hcls : 0 < st.num_classes) :
    Forward st d locData confData priorData num numPriors =
      .error (.nmsNoLocPred (-1)) := by
  obtain ⟨n, rfl⟩ : ∃ n, num = n + 1 :=
    ⟨num - 1, (Nat.succ_pred_eq_of_pos hnum).symm⟩
  obtain ⟨m, hm⟩ : ∃ m, st.num_classes = m + 1 :=
    ⟨st.num_classes - 1, (Nat.succ_pred_eq_of_pos hcls).symm⟩
  have hloc : st.locClasses = 1 := by simp [LayerState.locClasses, hs]
  have hdec : ∀ (priors : List NormalizedBBox) (vars : List (List ℚ))
      (lp : List (Int × List NormalizedBBox)),
      decodeImageLoop st d priors vars lp (List.range st.locClasses) = .ok [] := by
    intro priors vars lp
    rw [hloc, show List.range 1 = [0] from rfl]
    simp only [decodeImageLoop]
    rw [if_pos (by simp [locLabelOf, hs, hbg])]
  have hproc : ∀ (priors : List NormalizedBBox) (vars : List (List ℚ))
      (lp : List (Int × List NormalizedBBox)) (cs0 : List (Int × List ℚ))
      (scores : List ℚ), alFind cs0 0 = some scores →
      processImage st d priors vars lp cs0 = .error (.nmsNoLocPred (-1)) := by
    intro priors vars lp cs0 scores hconf
    unfold processImage
    rw [hdec]
    have hnms : nmsImageLoop st cs0 [] (List.range st.num_classes) =
        .error (.nmsNoLocPred (-1)) := by
      rw [hm, List.range_succ_eq_map]
      exact nmsImageLoop_empty_decodeB_fatal st cs0 scores hs hbg hconf _
    simp only [Bind.bind, Except.bind, hnms]
  have hconf0 : alFind ((List.range st.num_classes).map fun c =>
      (Int.ofNat c, (List.range numPriors).map fun p =>
        confData.getD ((0 * numPriors + p) * st.num_classes + c) 0)) 0 =
      some ((List.range numPriors).map fun p =>
        confData.getD ((0 * numPriors + p) * st.num_classes + 0) 0) := by
    rw [hm, List.range_succ_eq_map]
    simp only [List.map_cons, alFind]
    rw [if_pos (show (Int.ofNat 0 : Int) = 0 from rfl)]
  simp only [Forward, GetLocPredictions, GetConfidenceScores,
    List.range_succ_eq_map, List.map_cons, List.zip_cons_cons, countPass]
  rw [hproc _ _ _ _ _ hconf0]
  rfl

/-- Witness for C10: the concrete shared-location run with
`background_label_id = -1` aborts with the missing-location error. -/
theorem shared_location_background_minus_one_fatal_witness :
    Forward
      { num_classes := 1, share_location := true, background_label_id := -1,
        nms_threshold := 1/2, top_k := -1, need_save := false,
        label_to_name := [], names := [], sizes := [], name_count := 0,
        output_name_prfx := "" }
      exDecode exLocP exConfP exPriorP 1 1 = .error (.nmsNoLocPred (-1)) :=
  shared_location_background_minus_one_fatal
    { num_classes := 1, share_location := true, background_label_id := -1,
      nms_threshold := 1/2, top_k := -1, need_save := false,
      label_to_name := [], names := [], sizes := [], name_count := 0,
      output_name_prfx := "" }
    exDecode exLocP exConfP exPriorP 1 1 rfl rfl (by decide) (by decide)

end CaffeSSD
